import Mathlib

/-!
Verification of the train reservation system (`train_reservation_system.py`).

The Python program keeps three pieces of mutable state: a dictionary of
`Train` objects keyed by train number, a dictionary of `Ticket` objects keyed
by PNR string, and a class-level PNR counter.  Tickets hold a reference to
their `Train` object.  We model object references with a heap: `heap` is the
list of all allocated `Train` objects in allocation order, and both the train
directory and every ticket store an index into the heap.  Python dictionaries
are modelled as association lists where assignment updates the first matching
key in place and otherwise appends (insertion order is preserved, as in
Python).  PNRs are the decimal strings `str(counter)`, exactly as in the
source; we prove `Nat.repr` injective below to reason about their uniqueness.
-/

namespace TrainReservation

/-- The three status strings used by the source:
`"Confirmed"`, `"Waiting"`, `"Cancelled"`. -/
inductive Status where
  | Confirmed
  | Waiting
  | Cancelled
deriving DecidableEq

/-- A passenger dictionary `{"name": name, "age": age}` (the source reads the
age with `input` and keeps it as a string). -/
structure Passenger where
  name : String
  age : String
deriving DecidableEq

/-- `Train.__init__`: static route facts, `available_seats` starts at
`total_seats`, `waiting_list` starts empty and stores PNR strings. -/
structure Train where
  train_no : String
  name : String
  source : String
  destination : String
  total_seats : Int
  available_seats : Int
  waiting_list : List String
deriving DecidableEq

/-- `Train(train_no, name, source, destination, total_seats)`. -/
def mkTrain (train_no name source destination : String) (total_seats : Int) : Train :=
  { train_no := train_no, name := name, source := source, destination := destination,
    total_seats := total_seats, available_seats := total_seats, waiting_list := [] }

/-- `Train.check_availability`: returns the number of available seats. -/
def Train.check_availability (t : Train) : Int :=
  t.available_seats

/-- A `Ticket` object.  `train` is the heap reference to the owning `Train`
object.  The booking date plays no role in any operation and is omitted. -/
structure Ticket where
  pnr : String
  train : Nat
  passengers : List Passenger
  status : Status
deriving DecidableEq

/-- `Ticket.__init__` after the counter has been incremented to `counter`:
`self.pnr = str(Ticket.pnr_counter)` and the status is decided from the
train's availability (`"Confirmed" if train.check_availability() >=
len(passengers) else "Waiting"`). -/
def Ticket.make (counter : Nat) (ref : Nat) (tr : Train) (passengers : List Passenger) : Ticket :=
  { pnr := Nat.repr counter, train := ref, passengers := passengers,
    status := if tr.check_availability ≥ (passengers.length : Int)
              then Status.Confirmed else Status.Waiting }

/-- Python dictionary lookup `d[k]` / `k in d`, on an association list. -/
def dlookup [DecidableEq κ] (k : κ) : List (κ × α) → Option α
  | [] => none
  | (k₁, v₁) :: rest => if k₁ = k then some v₁ else dlookup k rest

/-- Python dictionary assignment `d[k] = v`: replace the first binding of `k`
in place, or append a new binding (Python preserves insertion order). -/
def dinsert [DecidableEq κ] (k : κ) (v : α) : List (κ × α) → List (κ × α)
  | [] => [(k, v)]
  | (k₁, v₁) :: rest => if k₁ = k then (k, v) :: rest else (k₁, v₁) :: dinsert k v rest

/-- Python `list.index(x)`: position of the first occurrence of `x`, `none`
when absent (where Python raises `ValueError`). -/
def listIndex [DecidableEq α] (x : α) : List α → Option Nat
  | [] => none
  | y :: ys => if y = x then some 0 else (listIndex x ys).map (fun i => i + 1)

/-- The typed failures of the operations.  The first five are the validation
failures the source reports with an error message and an early return;
`KeyError` stands for an unguarded Python dictionary/list access failing
(never reached from a reachable state, as proved below). -/
inductive Err where
  | TrainNotFoundError
  | DuplicateTrainError
  | TicketNotFoundError
  | AlreadyCancelledError
  | InvalidPassengerCountError
  | KeyError
deriving DecidableEq

/-- `ReservationSystem.__init__` plus the class-level `Ticket.pnr_counter`:
`heap` holds every allocated `Train` object, `trains` maps train numbers to
heap references, `tickets` maps PNR strings to tickets. -/
structure ReservationSystem where
  heap : List Train
  trains : List (String × Nat)
  tickets : List (String × Ticket)
  pnr_counter : Nat
deriving DecidableEq

/-- A fresh system: no trains, no tickets, and the PNR counter seeded with an
arbitrary value (the source seeds it with `random.randint(1000000, 9999999)`). -/
def ReservationSystem.init (seed : Nat) : ReservationSystem :=
  { heap := [], trains := [], tickets := [], pnr_counter := seed }

/-- `ReservationSystem.add_train`: allocate the `Train` object and execute
`self.trains[train.train_no] = train`.  No duplicate check is performed: an
existing binding for the same train number is overwritten. -/
def add_train (s : ReservationSystem) (t : Train) : ReservationSystem :=
  { s with heap := s.heap ++ [t],
           trains := dinsert t.train_no s.heap.length s.trains }

/-- `ReservationSystem.book_ticket`, with the interactive input replaced by
arguments.  Mirrors the source order: train lookup, passenger-count check,
`Ticket` construction (incrementing the counter), storing the ticket, then
either the seat decrement (Confirmed) or the waiting-list append (Waiting). -/
def book_ticket (s : ReservationSystem) (train_no : String) (passengers : List Passenger) :
    Except Err (ReservationSystem × String) :=
  match dlookup train_no s.trains with
  | none => .error .TrainNotFoundError
  | some ref =>
    if passengers.length = 0 then .error .InvalidPassengerCountError
    else
      match s.heap[ref]? with
      | none => .error .KeyError
      | some tr =>
        let counter := s.pnr_counter + 1
        let tk := Ticket.make counter ref tr passengers
        let tks := dinsert tk.pnr tk s.tickets
        if tk.status = Status.Confirmed then
          let tr2 := { tr with available_seats := tr.available_seats - (passengers.length : Int) }
          .ok ({ s with pnr_counter := counter, tickets := tks, heap := s.heap.set ref tr2 }, tk.pnr)
        else
          let tr2 := { tr with waiting_list := tr.waiting_list ++ [tk.pnr] }
          .ok ({ s with pnr_counter := counter, tickets := tks, heap := s.heap.set ref tr2 }, tk.pnr)

/-- `ReservationSystem.cancel_ticket`, with the interactive input replaced by
an argument.  Mirrors the source order: PNR lookup, already-cancelled check,
marking the ticket cancelled, the seat-credit condition exactly as written in
the source (`if ticket_to_cancel in self.tickets.values() and
ticket_to_cancel.status != "Cancelled"`), then the waiting-list head
inspection and possible promotion.  Returns the promoted PNR, if any. -/
def cancel_ticket (s : ReservationSystem) (pnr_to_cancel : String) :
    Except Err (ReservationSystem × Option String) :=
  match dlookup pnr_to_cancel s.tickets with
  | none => .error .TicketNotFoundError
  | some tkt =>
    if tkt.status = Status.Cancelled then .error .AlreadyCancelledError
    else
      match s.heap[tkt.train]? with
      | none => .error .KeyError
      | some tr =>
        let num_passengers := tkt.passengers.length
        let cancelled : Ticket := { tkt with status := Status.Cancelled }
        let tickets1 := dinsert pnr_to_cancel cancelled s.tickets
        let credited := { tr with available_seats := tr.available_seats + (num_passengers : Int) }
        let heap1 :=
          if cancelled ∈ tickets1.map Prod.snd ∧ cancelled.status ≠ Status.Cancelled then
            s.heap.set tkt.train credited
          else s.heap
        match heap1[tkt.train]? with
        | none => .error .KeyError
        | some tr1 =>
          match tr1.waiting_list with
          | [] => .ok ({ s with tickets := tickets1, heap := heap1 }, none)
          | pnr_from_wl :: rest =>
            match dlookup pnr_from_wl tickets1 with
            | none => .error .KeyError
            | some ticket_to_confirm =>
              if tr1.available_seats ≥ (ticket_to_confirm.passengers.length : Int) then
                let tickets2 := dinsert pnr_from_wl
                  { ticket_to_confirm with status := Status.Confirmed } tickets1
                let promoted := { tr1 with
                  available_seats :=
                    tr1.available_seats - (ticket_to_confirm.passengers.length : Int),
                  waiting_list := rest }
                let heap2 := heap1.set tkt.train promoted
                .ok ({ s with tickets := tickets2, heap := heap2 }, some pnr_from_wl)
              else
                .ok ({ s with tickets := tickets1, heap := heap1 }, none)

/-- The view returned by `check_pnr_status`: the ticket, and for a Waiting
ticket the 1-based waiting-list position. -/
structure TicketView where
  ticket : Ticket
  position : Option Nat
deriving DecidableEq

/-- `ReservationSystem.check_pnr_status`: look the ticket up and, when it is
Waiting, compute `ticket.train.waiting_list.index(pnr) + 1`. -/
def check_pnr_status (s : ReservationSystem) (pnr_to_check : String) :
    Except Err TicketView :=
  match dlookup pnr_to_check s.tickets with
  | none => .error .TicketNotFoundError
  | some tkt =>
    if tkt.status = Status.Waiting then
      match s.heap[tkt.train]? with
      | none => .error .KeyError
      | some tr =>
        match listIndex pnr_to_check tr.waiting_list with
        | none => .error .KeyError
        | some i => .ok { ticket := tkt, position := some (i + 1) }
    else .ok { ticket := tkt, position := none }

/-- The operations a caller can invoke on the system.  `addTrain` carries the
`Train(...)` constructor arguments, since the program always allocates a
fresh object for `add_train`. -/
inductive Op where
  | addTrain (train_no name source destination : String) (total_seats : Int)
  | bookTicket (train_no : String) (passengers : List Passenger)
  | cancelTicket (pnr : String)
  | getStatus (pnr : String)

/-- One operation, as a total transition on states: a rejected operation
(the source prints an error and returns) leaves the state unchanged. -/
def step (s : ReservationSystem) : Op → ReservationSystem
  | .addTrain tn n src dst cap => add_train s (mkTrain tn n src dst cap)
  | .bookTicket tn ps =>
    match book_ticket s tn ps with
    | .ok (s1, _) => s1
    | .error _ => s
  | .cancelTicket p =>
    match cancel_ticket s p with
    | .ok (s1, _) => s1
    | .error _ => s
  | .getStatus _ => s

/-- States reachable from a fresh system by any sequence of operations. -/
inductive Reachable : ReservationSystem → Prop where
  | init (seed : Nat) : Reachable (ReservationSystem.init seed)
  | step {s : ReservationSystem} (op : Op) : Reachable s → Reachable (step s op)

/-- `Steps s t`: `t` results from `s` by some (possibly empty) sequence of
operations. -/
inductive Steps : ReservationSystem → ReservationSystem → Prop where
  | refl (s : ReservationSystem) : Steps s s
  | tail {s t : ReservationSystem} (op : Op) : Steps s t → Steps s (step t op)

/-- The train record the directory currently resolves an identifier to. -/
def getTrain (s : ReservationSystem) (train_no : String) : Option Train :=
  (dlookup train_no s.trains).bind fun ref => s.heap[ref]?

/-- Total passenger count over the Confirmed tickets owned by the train at
heap reference `i`. -/
def confirmedSeats (s : ReservationSystem) (i : Nat) : Int :=
  (s.tickets.map (fun pr =>
    if pr.2.train = i ∧ pr.2.status = Status.Confirmed
    then (pr.2.passengers.length : Int) else 0)).sum

/-! ### The reachable-state invariant -/

/-- Well-formedness of a stored ticket: its dictionary key is its PNR, its
train reference is a live heap address, its PNR is the decimal form of some
counter value at most the current one, and a Waiting ticket appears in its
train's waiting list. -/
def TicketOK (s : ReservationSystem) (k : String) (t : Ticket) : Prop :=
  k = t.pnr ∧ t.train < s.heap.length ∧
  (∃ m, m ≤ s.pnr_counter ∧ t.pnr = Nat.repr m) ∧
  (t.status = Status.Waiting →
    ∃ tr, s.heap[t.train]? = some tr ∧ t.pnr ∈ tr.waiting_list)

/-- Well-formedness of the waiting list of the train at heap address `i`:
no duplicates, and every entry names a stored ticket of this train whose
status is Waiting or Cancelled and whose party is strictly larger than the
train's available seats (seats are never credited back, so nobody on the
list ever fits). -/
def WaitOK (s : ReservationSystem) (i : Nat) (tr : Train) : Prop :=
  tr.waiting_list.Nodup ∧
  ∀ p ∈ tr.waiting_list, ∃ t, dlookup p s.tickets = some t ∧ t.train = i ∧
    (t.status = Status.Waiting ∨ t.status = Status.Cancelled) ∧
    tr.available_seats < (t.passengers.length : Int)

/-- The state invariant maintained by every operation. -/
def Inv (s : ReservationSystem) : Prop :=
  (∀ k t, dlookup k s.tickets = some t → TicketOK s k t) ∧
  (∀ i tr, s.heap[i]? = some tr → WaitOK s i tr)


/-! ### Concrete scenarios

Scenario A exercises the seat-credit defect: a full train whose Confirmed
ticket is cancelled.  Scenario B puts a party on the waiting list and cancels
it.  Scenario C has a Confirmed party of three and a Waiting party of three
on a five-seat train.  Scenario D books two single-passenger tickets. -/

def paxA : Passenger := { name := "Asha", age := "30" }
def paxB : Passenger := { name := "Brij", age := "32" }
def paxC : Passenger := { name := "Chitra", age := "28" }

def sA1 : ReservationSystem :=
  step (ReservationSystem.init 0)
    (Op.addTrain "12028" "Shatabdi Express" "Bengaluru" "Chennai" 2)
def sA2 : ReservationSystem := step sA1 (Op.bookTicket "12028" [paxA, paxB])
def sA3 : ReservationSystem := step sA2 (Op.cancelTicket "1")

def sB1 : ReservationSystem :=
  step (ReservationSystem.init 0)
    (Op.addTrain "16526" "Kanyakumari Exp" "Bengaluru" "Kanyakumari" 1)
def sB2 : ReservationSystem := step sB1 (Op.bookTicket "16526" [paxA, paxB])
def sB3 : ReservationSystem := step sB2 (Op.cancelTicket "1")

def sC1 : ReservationSystem :=
  step (ReservationSystem.init 0)
    (Op.addTrain "12627" "Karnataka Express" "Bengaluru" "New Delhi" 5)
def sC2 : ReservationSystem := step sC1 (Op.bookTicket "12627" [paxA, paxB, paxC])
def sC3 : ReservationSystem := step sC2 (Op.bookTicket "12627" [paxA, paxB, paxC])

def sD2 : ReservationSystem := step sA1 (Op.bookTicket "12028" [paxA])
def sD3 : ReservationSystem := step sD2 (Op.bookTicket "12028" [paxB])


/-- Claim C4 as the specification states it: in every reachable state, every
waiting-list entry names an existing ticket of that train whose status is
Waiting, and no duplicates appear.  Refuted below: a Waiting ticket that is
cancelled stays on the list with status Cancelled. -/
def C4Claim : Prop :=
  ∀ s : ReservationSystem, Reachable s → ∀ i tr, s.heap[i]? = some tr →
    tr.waiting_list.Nodup ∧
    ∀ p ∈ tr.waiting_list, ∃ t, dlookup p s.tickets = some t ∧
      t.status = Status.Waiting ∧ t.train = i

/-- Claim C8 as the specification states it, in its observable part: adding a
train whose identifier already exists leaves the record that the directory
resolves for that identifier unchanged.  Refuted below: `add_train` silently
overwrites the entry. -/
def C8Claim : Prop :=
  ∀ (s : ReservationSystem) (tn nm src dst : String) (cap : Int),
    (∃ tr0, getTrain s tn = some tr0) →
    getTrain (add_train s (mkTrain tn nm src dst cap)) tn = getTrain s tn

/-! ### Injectivity of decimal PNR strings

PNRs are `str(Ticket.pnr_counter)`, i.e. `Nat.repr` of the counter.  To know
that distinct counter values give distinct PNR strings we prove `Nat.repr`
injective, by exhibiting a left inverse that reads the digit string back. -/

/-- Numeric value of a decimal digit character (left inverse of
`Nat.digitChar` on digits). -/
def digitVal (c : Char) : Nat :=
  if c = '0' then 0 else if c = '1' then 1 else if c = '2' then 2 else if c = '3' then 3
  else if c = '4' then 4 else if c = '5' then 5 else if c = '6' then 6 else if c = '7' then 7
  else if c = '8' then 8 else 9

/-- Reads a most-significant-digit-first character list back into a number,
with accumulator `k`. -/
def valOf (k : Nat) : List Char → Nat
  | [] => k
  | c :: cs => valOf (k * 10 + digitVal c) cs

theorem digitVal_digitChar (d : Nat) (h : d < 10) : digitVal (Nat.digitChar d) = d := by
  have hall : ∀ e, e < 10 → digitVal (Nat.digitChar e) = e := by decide
  exact hall d h

theorem valOf_append (l₁ l₂ : List Char) (k : Nat) :
    valOf k (l₁ ++ l₂) = valOf (valOf k l₁) l₂ := by
  induction l₁ generalizing k with
  | nil => rfl
  | cons c cs ih => simp [valOf, ih]

theorem tdc_prepend (f : Nat) : ∀ (n : Nat) (acc : List Char),
    Nat.toDigitsCore 10 f n acc = Nat.toDigitsCore 10 f n [] ++ acc := by
  induction f with
  | zero => intro n acc; simp [Nat.toDigitsCore]
  | succ f ih =>
    intro n acc
    by_cases h : n / 10 = 0
    · simp [Nat.toDigitsCore, h]
    · simp only [Nat.toDigitsCore, h, if_false]
      rw [ih (n / 10) (Nat.digitChar (n % 10) :: acc), ih (n / 10) [Nat.digitChar (n % 10)]]
      simp

theorem tdc_fuel (n : Nat) : ∀ (f g : Nat), n < f → n < g →
    Nat.toDigitsCore 10 f n [] = Nat.toDigitsCore 10 g n [] := by
  induction n using Nat.strong_induction_on with
  | _ n ih =>
    intro f g hf hg
    cases f with
    | zero => omega
    | succ f =>
      cases g with
      | zero => omega
      | succ g =>
        by_cases h : n / 10 = 0
        · simp [Nat.toDigitsCore, h]
        · have hlt : n / 10 < n := by omega
          simp only [Nat.toDigitsCore, h, if_false]
          rw [tdc_prepend f (n / 10), tdc_prepend g (n / 10),
              ih (n / 10) hlt f g (by omega) (by omega)]

theorem toDigits_step (n : Nat) (h : n / 10 ≠ 0) :
    Nat.toDigits 10 n = Nat.toDigits 10 (n / 10) ++ [Nat.digitChar (n % 10)] := by
  have hlt : n / 10 < n := by omega
  show Nat.toDigitsCore 10 (n + 1) n [] = _
  simp only [Nat.toDigitsCore, h, if_false]
  rw [tdc_prepend n (n / 10)]
  have : Nat.toDigitsCore 10 n (n / 10) [] = Nat.toDigits 10 (n / 10) :=
    tdc_fuel (n / 10) n (n / 10 + 1) (by omega) (by omega)
  rw [this]

theorem valOf_toDigits (n : Nat) : ∀ (k : Nat),
    valOf k (Nat.toDigits 10 n) = k * 10 ^ (Nat.toDigits 10 n).length + n := by
  induction n using Nat.strong_induction_on with
  | _ n ih =>
    intro k
    by_cases h : n / 10 = 0
    · have hn : n < 10 := by omega
      have hD : Nat.toDigits 10 n = [Nat.digitChar (n % 10)] := by
        simp [Nat.toDigits, Nat.toDigitsCore, h]
      rw [hD]
      simp only [valOf, List.length_cons, List.length_nil]
      rw [digitVal_digitChar (n % 10) (by omega)]
      have hmod : n % 10 = n := by omega
      rw [hmod, pow_one]
    · have hlt : n / 10 < n := by omega
      rw [toDigits_step n h, valOf_append]
      rw [ih (n / 10) hlt k]
      simp only [valOf]
      rw [digitVal_digitChar (n % 10) (by omega)]
      have hq : n / 10 * 10 + n % 10 = n := by omega
      calc (k * 10 ^ (Nat.toDigits 10 (n / 10)).length + n / 10) * 10 + n % 10
          = k * (10 ^ (Nat.toDigits 10 (n / 10)).length * 10) + (n / 10 * 10 + n % 10) := by ring
        _ = k * 10 ^ ((Nat.toDigits 10 (n / 10)).length + 1) + n := by rw [hq, pow_succ]
        _ = k * 10 ^ (Nat.toDigits 10 (n / 10) ++ [Nat.digitChar (n % 10)]).length + n := by
              simp

theorem nat_repr_injective : Function.Injective Nat.repr := by
  intro a b h
  have h2 : Nat.toDigits 10 a = Nat.toDigits 10 b := by
    simpa [Nat.repr, List.asString] using congrArg String.data h
  have ha := valOf_toDigits a 0
  have hb := valOf_toDigits b 0
  rw [h2] at ha
  simp only [Nat.zero_mul, Nat.zero_add] at ha hb
  omega

/-! ### Dictionary and list lemmas -/

theorem dlookup_dinsert [DecidableEq κ] (k k₁ : κ) (v : α) (l : List (κ × α)) :
    dlookup k₁ (dinsert k v l) = if k = k₁ then some v else dlookup k₁ l := by
  induction l with
  | nil => simp [dinsert, dlookup]
  | cons pr rest ih =>
    obtain ⟨k₂, v₂⟩ := pr
    by_cases h2 : k₂ = k
    · subst h2
      by_cases h1 : k₂ = k₁ <;> simp [dinsert, dlookup, h1]
    · by_cases h1 : k₂ = k₁
      · subst h1
        have : ¬ (k = k₂) := fun hc => h2 hc.symm
        simp [dinsert, dlookup, h2, this]
      · simp [dinsert, dlookup, h2, h1, ih]

theorem listIndex_of_mem [DecidableEq α] (x : α) (l : List α) (h : x ∈ l) :
    ∃ i, listIndex x l = some i := by
  induction l with
  | nil => cases h
  | cons y ys ih =>
    by_cases hy : y = x
    · exact ⟨0, by simp [listIndex, hy]⟩
    · have hmem : x ∈ ys := by
        cases h with
        | head => exact absurd rfl hy
        | tail _ h2 => exact h2
      obtain ⟨i, hi⟩ := ih hmem
      exact ⟨i + 1, by simp [listIndex, hy, hi]⟩

/-- The next PNR the counter will produce is not a key of the ticket store. -/
theorem fresh_lookup {s : ReservationSystem} (hI : Inv s) :
    dlookup (Nat.repr (s.pnr_counter + 1)) s.tickets = none := by
  cases hd : dlookup (Nat.repr (s.pnr_counter + 1)) s.tickets with
  | none => rfl
  | some t =>
    obtain ⟨hpnr, -, ⟨m, hm, hrepr⟩, -⟩ := hI.1 _ t hd
    have : s.pnr_counter + 1 = m := nat_repr_injective (hpnr.trans hrepr)
    omega

/-- The next PNR the counter will produce is on no waiting list. -/
theorem fresh_wl {s : ReservationSystem} (hI : Inv s) {i : Nat} {tr : Train}
    (hi : s.heap[i]? = some tr) :
    Nat.repr (s.pnr_counter + 1) ∉ tr.waiting_list := by
  intro hin
  obtain ⟨t, ht, -, -, -⟩ := (hI.2 i tr hi).2 _ hin
  rw [fresh_lookup hI] at ht
  exact Option.noConfusion ht

/-! ### How the operations evaluate under their preconditions -/

theorem book_eq_confirmed {s : ReservationSystem} {tn : String} {ps : List Passenger}
    {ref : Nat} {tr : Train}
    (hd : dlookup tn s.trains = some ref) (hh : s.heap[ref]? = some tr)
    (hn0 : ps ≠ []) (hav : tr.check_availability ≥ (ps.length : Int)) :
    book_ticket s tn ps =
      .ok ({ s with
             pnr_counter := s.pnr_counter + 1
             tickets := dinsert (Nat.repr (s.pnr_counter + 1))
               (Ticket.mk (Nat.repr (s.pnr_counter + 1)) ref ps Status.Confirmed) s.tickets
             heap := s.heap.set ref
               { tr with available_seats := tr.available_seats - (ps.length : Int) } },
           Nat.repr (s.pnr_counter + 1)) := by
  have hlen : ¬ (ps.length = 0) := by simpa using hn0
  have hle : (ps.length : Int) ≤ tr.available_seats := hav
  simp [book_ticket, hd, hh, hlen, Ticket.make, Train.check_availability, hle]

theorem book_eq_waiting {s : ReservationSystem} {tn : String} {ps : List Passenger}
    {ref : Nat} {tr : Train}
    (hd : dlookup tn s.trains = some ref) (hh : s.heap[ref]? = some tr)
    (hn0 : ps ≠ []) (hav : ¬ tr.check_availability ≥ (ps.length : Int)) :
    book_ticket s tn ps =
      .ok ({ s with
             pnr_counter := s.pnr_counter + 1
             tickets := dinsert (Nat.repr (s.pnr_counter + 1))
               (Ticket.mk (Nat.repr (s.pnr_counter + 1)) ref ps Status.Waiting) s.tickets
             heap := s.heap.set ref
               { tr with waiting_list := tr.waiting_list ++ [Nat.repr (s.pnr_counter + 1)] } },
           Nat.repr (s.pnr_counter + 1)) := by
  have hlen : ¬ (ps.length = 0) := by simpa using hn0
  have hgt : ¬ (ps.length : Int) ≤ tr.available_seats := hav
  simp [book_ticket, hd, hh, hlen, Ticket.make, Train.check_availability, hgt]

theorem book_ok_inversion {s s' : ReservationSystem} {tn : String} {ps : List Passenger}
    {p : String} (h : book_ticket s tn ps = .ok (s', p)) :
    ∃ ref tr, dlookup tn s.trains = some ref ∧ s.heap[ref]? = some tr ∧ ps ≠ [] := by
  unfold book_ticket at h
  split at h
  · exact absurd h (by simp)
  next ref hd =>
    split at h
    · exact absurd h (by simp)
    next hn0 =>
      split at h
      · exact absurd h (by simp)
      next tr hh =>
        exact ⟨ref, tr, hd, hh, by simpa using hn0⟩

theorem cancel_eq_nowl {s : ReservationSystem} {p : String} {tkt : Ticket} {tr : Train}
    (hl : dlookup p s.tickets = some tkt) (hnc : ¬ tkt.status = Status.Cancelled)
    (hh : s.heap[tkt.train]? = some tr) (hw : tr.waiting_list = []) :
    cancel_ticket s p =
      .ok ({ s with tickets := dinsert p { tkt with status := Status.Cancelled } s.tickets },
           none) := by
  simp [cancel_ticket, hl, hnc, hh, hw]

theorem cancel_eq_nofit {s : ReservationSystem} {p : String} {tkt : Ticket} {tr : Train}
    {h₀ : String} {rest : List String} {t₀ : Ticket}
    (hl : dlookup p s.tickets = some tkt) (hnc : ¬ tkt.status = Status.Cancelled)
    (hh : s.heap[tkt.train]? = some tr) (hw : tr.waiting_list = h₀ :: rest)
    (ht₀ : dlookup h₀ (dinsert p { tkt with status := Status.Cancelled } s.tickets) = some t₀)
    (hfit : ¬ tr.available_seats ≥ (t₀.passengers.length : Int)) :
    cancel_ticket s p =
      .ok ({ s with tickets := dinsert p { tkt with status := Status.Cancelled } s.tickets },
           none) := by
  simp [cancel_ticket, hl, hnc, hh, hw, ht₀, hfit]

theorem cancel_eq_fit {s : ReservationSystem} {p : String} {tkt : Ticket} {tr : Train}
    {h₀ : String} {rest : List String} {t₀ : Ticket}
    (hl : dlookup p s.tickets = some tkt) (hnc : ¬ tkt.status = Status.Cancelled)
    (hh : s.heap[tkt.train]? = some tr) (hw : tr.waiting_list = h₀ :: rest)
    (ht₀ : dlookup h₀ (dinsert p { tkt with status := Status.Cancelled } s.tickets) = some t₀)
    (hfit : tr.available_seats ≥ (t₀.passengers.length : Int)) :
    cancel_ticket s p =
      .ok ({ s with
             tickets := dinsert h₀ { t₀ with status := Status.Confirmed }
               (dinsert p { tkt with status := Status.Cancelled } s.tickets)
             heap := s.heap.set tkt.train
               { tr with
                 available_seats := tr.available_seats - (t₀.passengers.length : Int)
                 waiting_list := rest } },
           some h₀) := by
  simp [cancel_ticket, hl, hnc, hh, hw, ht₀, hfit]

theorem cancel_ok_inversion {s s1 : ReservationSystem} {p : String} {r : Option String}
    (h : cancel_ticket s p = .ok (s1, r)) :
    ∃ tkt, dlookup p s.tickets = some tkt ∧ ¬ tkt.status = Status.Cancelled := by
  unfold cancel_ticket at h
  split at h
  · exact absurd h (by simp)
  next tkt hl =>
    split at h
    · exact absurd h (by simp)
    next hnc => exact ⟨tkt, hl, hnc⟩

/-- In any state satisfying the invariant, a successful cancellation does
nothing but mark the ticket cancelled: the seat-credit condition at the heart
of `cancel_ticket` is false by construction, and the waiting-list head never
fits (every queued party exceeds the available seats), so no promotion occurs
and no train object changes. -/
theorem cancel_inv_eq {s : ReservationSystem} {p : String} {tkt : Ticket}
    (hI : Inv s) (hl : dlookup p s.tickets = some tkt)
    (hnc : ¬ tkt.status = Status.Cancelled) :
    cancel_ticket s p =
      .ok ({ s with tickets := dinsert p { tkt with status := Status.Cancelled } s.tickets },
           none) := by
  obtain ⟨hpnr, htl, hm, hwait⟩ := hI.1 p tkt hl
  obtain ⟨tr, hh⟩ : ∃ tr, s.heap[tkt.train]? = some tr :=
    ⟨_, List.getElem?_eq_getElem htl⟩
  cases hw : tr.waiting_list with
  | nil => exact cancel_eq_nowl hl hnc hh hw
  | cons h₀ rest =>
    have hmem : h₀ ∈ tr.waiting_list := by rw [hw]; exact List.mem_cons_self h₀ rest
    obtain ⟨t₀, ht₀, htrn₀, hst₀, hseat₀⟩ := (hI.2 tkt.train tr hh).2 h₀ hmem
    by_cases hph : p = h₀
    · subst hph
      rw [hl] at ht₀
      obtain rfl : tkt = t₀ := Option.some.inj ht₀
      have hlk : dlookup p (dinsert p { tkt with status := Status.Cancelled } s.tickets) =
          some { tkt with status := Status.Cancelled } := by
        rw [dlookup_dinsert]; simp
      exact cancel_eq_nofit hl hnc hh hw hlk (not_le.mpr hseat₀)
    · have hlk : dlookup h₀ (dinsert p { tkt with status := Status.Cancelled } s.tickets) =
          some t₀ := by
        rw [dlookup_dinsert, if_neg hph]; exact ht₀
      exact cancel_eq_nofit hl hnc hh hw hlk (not_le.mpr hseat₀)

/-! ### The invariant holds in every reachable state -/

theorem inv_init (seed : Nat) : Inv (ReservationSystem.init seed) := by
  constructor
  · intro k t h
    simp [dlookup, ReservationSystem.init] at h
  · intro i tr h
    simp [ReservationSystem.init] at h

theorem inv_add {s : ReservationSystem} (hI : Inv s)
    (tn nm src dst : String) (cap : Int) :
    Inv (add_train s (mkTrain tn nm src dst cap)) := by
  constructor
  · intro k t h
    simp only [add_train] at h
    obtain ⟨hp, hlt, hm, hwait⟩ := hI.1 k t h
    refine ⟨hp, ?_, hm, ?_⟩
    · simp only [add_train, List.length_append, List.length_cons, List.length_nil]
      omega
    · intro hW
      obtain ⟨tr, htr, hmemw⟩ := hwait hW
      refine ⟨tr, ?_, hmemw⟩
      simp only [add_train]
      rw [List.getElem?_append_left hlt]
      exact htr
  · intro i tr h
    simp only [add_train] at h
    rcases Nat.lt_trichotomy i s.heap.length with hlt | heq | hgt
    · rw [List.getElem?_append_left hlt] at h
      obtain ⟨hnd, hall⟩ := hI.2 i tr h
      exact ⟨hnd, fun p hp => hall p hp⟩
    · subst heq
      rw [List.getElem?_concat_length] at h
      obtain rfl : mkTrain tn nm src dst cap = tr := Option.some.inj h
      constructor
      · simp [mkTrain]
      · intro p hp
        simp [mkTrain] at hp
    · rw [List.getElem?_eq_none (by simp; omega)] at h
      cases h

theorem inv_book {s s' : ReservationSystem} {tn : String} {ps : List Passenger} {p : String}
    (hI : Inv s) (h : book_ticket s tn ps = .ok (s', p)) : Inv s' := by
  obtain ⟨ref, tr, hd, hh, hn0⟩ := book_ok_inversion h
  have href : ref < s.heap.length := by
    by_contra hc
    rw [List.getElem?_eq_none (by omega)] at hh
    cases hh
  by_cases hav : tr.check_availability ≥ (ps.length : Int)
  · rw [book_eq_confirmed hd hh hn0 hav] at h
    injection h with h2
    injection h2 with h3 h4
    rw [← h3]
    constructor
    · intro k t hkt
      dsimp only at hkt
      rw [dlookup_dinsert] at hkt
      simp only [TicketOK, List.length_set]
      by_cases hq : Nat.repr (s.pnr_counter + 1) = k
      · rw [if_pos hq] at hkt
        obtain rfl := Option.some.inj hkt
        refine ⟨hq.symm, href, ⟨s.pnr_counter + 1, le_refl _, rfl⟩, ?_⟩
        intro hW
        exact Status.noConfusion hW
      · rw [if_neg hq] at hkt
        obtain ⟨hp, hlt, ⟨m, hm, hr⟩, hwait⟩ := hI.1 k t hkt
        refine ⟨hp, hlt, ⟨m, by omega, hr⟩, ?_⟩
        intro hW
        obtain ⟨tr₂, htr₂, hmemw⟩ := hwait hW
        by_cases hte : t.train = ref
        · rw [hte] at htr₂
          rw [hh] at htr₂
          obtain rfl : tr = tr₂ := Option.some.inj htr₂
          rw [hte]
          exact ⟨_, List.getElem?_set_self href, hmemw⟩
        · exact ⟨tr₂, by rw [List.getElem?_set_ne (fun hce => hte hce.symm)]; exact htr₂, hmemw⟩
    · intro i tri hi
      dsimp only at hi
      simp only [WaitOK]
      by_cases hie : i = ref
      · subst hie
        rw [List.getElem?_set_self href] at hi
        obtain rfl := Option.some.inj hi
        obtain ⟨hnd, hall⟩ := hI.2 i tr hh
        refine ⟨hnd, ?_⟩
        intro p₁ hp₁
        obtain ⟨t₁, hl₁, htn₁, hst₁, hseat₁⟩ := hall p₁ hp₁
        have hne : Nat.repr (s.pnr_counter + 1) ≠ p₁ := by
          intro hqe
          rw [← hqe, fresh_lookup hI] at hl₁
          cases hl₁
        refine ⟨t₁, by rw [dlookup_dinsert, if_neg hne]; exact hl₁, htn₁, hst₁, ?_⟩
        show tr.available_seats - (ps.length : Int) < (t₁.passengers.length : Int)
        have hps : (0 : Int) ≤ (ps.length : Int) := Int.ofNat_nonneg ps.length
        omega
      · rw [List.getElem?_set_ne (fun hce => hie hce.symm)] at hi
        obtain ⟨hnd, hall⟩ := hI.2 i tri hi
        refine ⟨hnd, ?_⟩
        intro p₁ hp₁
        obtain ⟨t₁, hl₁, htn₁, hst₁, hseat₁⟩ := hall p₁ hp₁
        have hne : Nat.repr (s.pnr_counter + 1) ≠ p₁ := by
          intro hqe
          rw [← hqe, fresh_lookup hI] at hl₁
          cases hl₁
        exact ⟨t₁, by rw [dlookup_dinsert, if_neg hne]; exact hl₁, htn₁, hst₁, hseat₁⟩
  · rw [book_eq_waiting hd hh hn0 hav] at h
    injection h with h2
    injection h2 with h3 h4
    rw [← h3]
    have hq_not_wl : Nat.repr (s.pnr_counter + 1) ∉ tr.waiting_list := fresh_wl hI hh
    constructor
    · intro k t hkt
      dsimp only at hkt
      rw [dlookup_dinsert] at hkt
      simp only [TicketOK, List.length_set]
      by_cases hq : Nat.repr (s.pnr_counter + 1) = k
      · rw [if_pos hq] at hkt
        obtain rfl := Option.some.inj hkt
        refine ⟨hq.symm, href, ⟨s.pnr_counter + 1, le_refl _, rfl⟩, ?_⟩
        intro _
        exact ⟨_, List.getElem?_set_self href, by simp⟩
      · rw [if_neg hq] at hkt
        obtain ⟨hp, hlt, ⟨m, hm, hr⟩, hwait⟩ := hI.1 k t hkt
        refine ⟨hp, hlt, ⟨m, by omega, hr⟩, ?_⟩
        intro hW
        obtain ⟨tr₂, htr₂, hmemw⟩ := hwait hW
        by_cases hte : t.train = ref
        · rw [hte] at htr₂
          rw [hh] at htr₂
          obtain rfl : tr = tr₂ := Option.some.inj htr₂
          rw [hte]
          exact ⟨_, List.getElem?_set_self href, List.mem_append_left _ hmemw⟩
        · exact ⟨tr₂, by rw [List.getElem?_set_ne (fun hce => hte hce.symm)]; exact htr₂, hmemw⟩
    · intro i tri hi
      dsimp only at hi
      simp only [WaitOK]
      by_cases hie : i = ref
      · subst hie
        rw [List.getElem?_set_self href] at hi
        obtain rfl := Option.some.inj hi
        obtain ⟨hnd, hall⟩ := hI.2 i tr hh
        refine ⟨?_, ?_⟩
        · show (tr.waiting_list ++ [Nat.repr (s.pnr_counter + 1)]).Nodup
          rw [List.nodup_append]
          refine ⟨hnd, List.nodup_singleton _, ?_⟩
          intro a ha hb
          rw [List.mem_singleton] at hb
          subst hb
          exact hq_not_wl ha
        · intro p₁ hp₁
          have hp₂ : p₁ ∈ tr.waiting_list ++ [Nat.repr (s.pnr_counter + 1)] := hp₁
          rcases List.mem_append.mp hp₂ with hin | hin
          · obtain ⟨t₁, hl₁, htn₁, hst₁, hseat₁⟩ := hall p₁ hin
            have hne : Nat.repr (s.pnr_counter + 1) ≠ p₁ := by
              intro hqe
              rw [← hqe, fresh_lookup hI] at hl₁
              cases hl₁
            exact ⟨t₁, by rw [dlookup_dinsert, if_neg hne]; exact hl₁, htn₁, hst₁, hseat₁⟩
          · rw [List.mem_singleton] at hin
            subst hin
            refine ⟨Ticket.mk (Nat.repr (s.pnr_counter + 1)) i ps Status.Waiting,
                    by rw [dlookup_dinsert, if_pos rfl], rfl, Or.inl rfl, ?_⟩
            show tr.available_seats < (ps.length : Int)
            exact not_le.mp hav
      · rw [List.getElem?_set_ne (fun hce => hie hce.symm)] at hi
        obtain ⟨hnd, hall⟩ := hI.2 i tri hi
        refine ⟨hnd, ?_⟩
        intro p₁ hp₁
        obtain ⟨t₁, hl₁, htn₁, hst₁, hseat₁⟩ := hall p₁ hp₁
        have hne : Nat.repr (s.pnr_counter + 1) ≠ p₁ := by
          intro hqe
          rw [← hqe, fresh_lookup hI] at hl₁
          cases hl₁
        exact ⟨t₁, by rw [dlookup_dinsert, if_neg hne]; exact hl₁, htn₁, hst₁, hseat₁⟩

theorem inv_cancel {s : ReservationSystem} {p : String} {tkt : Ticket}
    (hI : Inv s) (hl : dlookup p s.tickets = some tkt) :
    Inv { s with tickets := dinsert p { tkt with status := Status.Cancelled } s.tickets } := by
  constructor
  · intro k t hkt
    rw [dlookup_dinsert] at hkt
    by_cases hq : p = k
    · rw [if_pos hq] at hkt
      obtain rfl := Option.some.inj hkt
      obtain ⟨hp, hlt, hm, -⟩ := hI.1 p tkt hl
      refine ⟨hq ▸ hp, hlt, hm, ?_⟩
      intro hW
      cases hW
    · rw [if_neg hq] at hkt
      obtain ⟨hp, hlt, hm, hwait⟩ := hI.1 k t hkt
      exact ⟨hp, hlt, hm, hwait⟩
  · intro i tri hi
    obtain ⟨hnd, hall⟩ := hI.2 i tri hi
    refine ⟨hnd, ?_⟩
    intro p₁ hp₁
    obtain ⟨t₁, hl₁, htn₁, hst₁, hseat₁⟩ := hall p₁ hp₁
    by_cases hq : p = p₁
    · subst hq
      rw [hl] at hl₁
      obtain rfl : tkt = t₁ := Option.some.inj hl₁
      exact ⟨{ tkt with status := Status.Cancelled },
             by rw [dlookup_dinsert, if_pos rfl], htn₁, Or.inr rfl, hseat₁⟩
    · exact ⟨t₁, by rw [dlookup_dinsert, if_neg hq]; exact hl₁, htn₁, hst₁, hseat₁⟩

theorem inv_step {s : ReservationSystem} (hI : Inv s) (op : Op) : Inv (step s op) := by
  cases op with
  | addTrain tn nm src dst cap => exact inv_add hI tn nm src dst cap
  | bookTicket tn ps =>
    cases hb : book_ticket s tn ps with
    | error e => simpa [step, hb] using hI
    | ok pr =>
      obtain ⟨s1, p⟩ := pr
      have h1 : Inv s1 := inv_book hI hb
      simpa [step, hb] using h1
  | cancelTicket p =>
    cases hc : cancel_ticket s p with
    | error e => simpa [step, hc] using hI
    | ok pr =>
      obtain ⟨s1, r⟩ := pr
      obtain ⟨tkt, hl, hnc⟩ := cancel_ok_inversion hc
      have hc2 := hc
      rw [cancel_inv_eq hI hl hnc] at hc2
      injection hc2 with h2
      injection h2 with h3 h4
      have h1 : Inv s1 := by rw [← h3]; exact inv_cancel hI hl
      simpa [step, hc] using h1
  | getStatus p => exact hI

/-- Every reachable state satisfies the invariant. -/
theorem reach_inv {s : ReservationSystem} (h : Reachable s) : Inv s := by
  induction h with
  | init seed => exact inv_init seed
  | step op hprev ih => exact inv_step ih op

/-! ### Small step equations -/

theorem step_book_eq {s s1 : ReservationSystem} {tn : String} {ps : List Passenger} {q : String}
    (h : book_ticket s tn ps = .ok (s1, q)) : step s (Op.bookTicket tn ps) = s1 := by
  simp [step, h]

theorem step_book_err {s : ReservationSystem} {tn : String} {ps : List Passenger} {e : Err}
    (h : book_ticket s tn ps = .error e) : step s (Op.bookTicket tn ps) = s := by
  simp [step, h]

theorem step_cancel_eq {s s1 : ReservationSystem} {q : String} {r : Option String}
    (h : cancel_ticket s q = .ok (s1, r)) : step s (Op.cancelTicket q) = s1 := by
  simp [step, h]

theorem step_cancel_err {s : ReservationSystem} {q : String} {e : Err}
    (h : cancel_ticket s q = .error e) : step s (Op.cancelTicket q) = s := by
  simp [step, h]

theorem reachable_sA3 : Reachable sA3 :=
  Reachable.step (Op.cancelTicket "1")
    (Reachable.step (Op.bookTicket "12028" [paxA, paxB])
      (Reachable.step (Op.addTrain "12028" "Shatabdi Express" "Bengaluru" "Chennai" 2)
        (Reachable.init 0)))

theorem reachable_sB2 : Reachable sB2 :=
  Reachable.step (Op.bookTicket "16526" [paxA, paxB])
    (Reachable.step (Op.addTrain "16526" "Kanyakumari Exp" "Bengaluru" "Kanyakumari" 1)
      (Reachable.init 0))

theorem reachable_sB3 : Reachable sB3 :=
  Reachable.step (Op.cancelTicket "1") reachable_sB2

/-! ### The claims -/

/-- Claim C1 (code defect witnessed): the capacity equation
`available + sum of Confirmed passengers = total` is violated in the
reachable state `sA3`: a two-seat train whose Confirmed two-passenger ticket
was cancelled has 0 available seats and 0 Confirmed seats, not 2, because the
seat credit in `cancel_ticket` sits under a condition that is always false. -/
theorem c1_capacity_equation_fails :
    ∃ tr, sA3.heap[0]? = some tr ∧
      tr.available_seats + confirmedSeats sA3 0 ≠ tr.total_seats := by
  refine ⟨⟨"12028", "Shatabdi Express", "Bengaluru", "Chennai", 2, 0, []⟩, by decide, by decide⟩

/-- Claim C2 (code defect witnessed): cancelling the Confirmed two-passenger
ticket `"1"` leaves the train at 0 available seats instead of crediting the
two seats back: the credit `train.available_seats += num_passengers` is
guarded by `ticket_to_cancel.status != "Cancelled"` evaluated after the
status was just set to `"Cancelled"`. -/
theorem c2_cancel_does_not_credit_seats :
    dlookup "1" sA2.tickets = some ⟨"1", 0, [paxA, paxB], Status.Confirmed⟩ ∧
    (∃ tr, sA2.heap[0]? = some tr ∧ tr.available_seats = 0) ∧
    (∃ tr, (step sA2 (Op.cancelTicket "1")).heap[0]? = some tr ∧
      tr.available_seats = 0) := by
  refine ⟨by decide, ⟨⟨"12028", "Shatabdi Express", "Bengaluru", "Chennai", 2, 0, []⟩,
    by decide, by decide⟩, ⟨⟨"12028", "Shatabdi Express", "Bengaluru", "Chennai", 2, 0, []⟩,
    by decide, by decide⟩⟩

/-- Claim C7: `cancel_ticket` on an unknown PNR fails with
`TicketNotFoundError`, and on an already Cancelled ticket fails with
`AlreadyCancelledError`; in both cases the system state is unchanged. -/
theorem c7_cancel_rejections (s : ReservationSystem) (p : String) :
    (dlookup p s.tickets = none →
      cancel_ticket s p = .error Err.TicketNotFoundError ∧
      step s (Op.cancelTicket p) = s) ∧
    (∀ t, dlookup p s.tickets = some t → t.status = Status.Cancelled →
      cancel_ticket s p = .error Err.AlreadyCancelledError ∧
      step s (Op.cancelTicket p) = s) := by
  constructor
  · intro h
    have hc : cancel_ticket s p = .error Err.TicketNotFoundError := by
      simp [cancel_ticket, h]
    exact ⟨hc, step_cancel_err hc⟩
  · intro t hl hcst
    have hc : cancel_ticket s p = .error Err.AlreadyCancelledError := by
      simp [cancel_ticket, hl, hcst]
    exact ⟨hc, step_cancel_err hc⟩

/-- Witness for C7 at concrete inputs: unknown PNR `"9"` on `sA1`, and the
already cancelled PNR `"1"` on `sA3`. -/
theorem c7_cancel_rejections_witness :
    (cancel_ticket sA1 "9" = .error Err.TicketNotFoundError ∧
      step sA1 (Op.cancelTicket "9") = sA1) ∧
    (cancel_ticket sA3 "1" = .error Err.AlreadyCancelledError ∧
      step sA3 (Op.cancelTicket "1") = sA3) :=
  ⟨(c7_cancel_rejections sA1 "9").1 (by decide),
   (c7_cancel_rejections sA3 "1").2 ⟨"1", 0, [paxA, paxB], Status.Cancelled⟩ (by decide) rfl⟩

/-- Claim C8 as stated is false: adding a train with an existing identifier
does not fail and does not leave the existing record in place — the
directory entry for `"12028"` now resolves to the new three-seat record. -/
theorem c8_duplicate_add_claim_false : ¬ C8Claim := by
  intro h
  have h2 := h sA1 "12028" "Duplicate" "Chennai" "Mysuru" 3
    ⟨⟨"12028", "Shatabdi Express", "Bengaluru", "Chennai", 2, 2, []⟩, by decide⟩
  exact absurd h2 (by decide)

/-- Claim C8 amended: `add_train` never fails; with an existing identifier it
replaces the directory entry, which afterwards resolves to the freshly
allocated record of the new train. -/
theorem c8_add_train_overwrites (s : ReservationSystem) (tn nm src dst : String) (cap : Int) :
    getTrain (add_train s (mkTrain tn nm src dst cap)) tn =
      some (mkTrain tn nm src dst cap) := by
  show (dlookup tn (dinsert tn s.heap.length s.trains)).bind _ = _
  rw [dlookup_dinsert, if_pos rfl, Option.some_bind]
  exact List.getElem?_concat_length _ _

/-- Booking does not disturb the stored ticket of any existing PNR. -/
theorem book_ok_lookup {s s1 : ReservationSystem} {tn : String} {ps : List Passenger}
    {q k : String} (hI : Inv s) (h : book_ticket s tn ps = .ok (s1, q))
    (hk : ∃ t, dlookup k s.tickets = some t) :
    dlookup k s1.tickets = dlookup k s.tickets := by
  obtain ⟨ref, tr, hd, hh, hn0⟩ := book_ok_inversion h
  have hne : Nat.repr (s.pnr_counter + 1) ≠ k := by
    intro hqe
    obtain ⟨t, ht⟩ := hk
    rw [← hqe, fresh_lookup hI] at ht
    cases ht
  by_cases hav : tr.check_availability ≥ (ps.length : Int)
  · rw [book_eq_confirmed hd hh hn0 hav] at h
    injection h with h2
    injection h2 with h3 h4
    rw [← h3]
    dsimp only
    rw [dlookup_dinsert, if_neg hne]
  · rw [book_eq_waiting hd hh hn0 hav] at h
    injection h with h2
    injection h2 with h3 h4
    rw [← h3]
    dsimp only
    rw [dlookup_dinsert, if_neg hne]

/-- Claim C3: in every reachable state, a ticket whose status is Cancelled
still has status Cancelled after any further operation — `Cancelled` is a
terminal state. -/
theorem c3_cancelled_is_terminal {s : ReservationSystem} (hs : Reachable s) {p : String}
    {t : Ticket} (hl : dlookup p s.tickets = some t) (hc : t.status = Status.Cancelled)
    (op : Op) :
    ∃ t2, dlookup p (step s op).tickets = some t2 ∧ t2.status = Status.Cancelled := by
  have hI := reach_inv hs
  cases op with
  | addTrain tn nm src dst cap => exact ⟨t, hl, hc⟩
  | bookTicket tn ps =>
    cases hb : book_ticket s tn ps with
    | error e =>
      rw [step_book_err hb]
      exact ⟨t, hl, hc⟩
    | ok pr =>
      obtain ⟨s1, q⟩ := pr
      rw [step_book_eq hb, book_ok_lookup hI hb ⟨t, hl⟩]
      exact ⟨t, hl, hc⟩
  | cancelTicket q =>
    cases hcq : cancel_ticket s q with
    | error e =>
      rw [step_cancel_err hcq]
      exact ⟨t, hl, hc⟩
    | ok pr =>
      obtain ⟨s1, r⟩ := pr
      obtain ⟨tkt, hlq, hnc⟩ := cancel_ok_inversion hcq
      have hcq2 := hcq
      rw [cancel_inv_eq hI hlq hnc] at hcq2
      injection hcq2 with h2
      injection h2 with h3 h4
      rw [step_cancel_eq hcq, ← h3]
      dsimp only
      rw [dlookup_dinsert]
      by_cases hqp : q = p
      · rw [if_pos hqp]
        exact ⟨_, rfl, rfl⟩
      · rw [if_neg hqp]
        exact ⟨t, hl, hc⟩
  | getStatus q => exact ⟨t, hl, hc⟩

/-- Witness for C3: the cancelled ticket `"1"` of `sA3` is still Cancelled
after a further cancellation attempt on it. -/
theorem c3_cancelled_is_terminal_witness :
    ∃ t2, dlookup "1" (step sA3 (Op.cancelTicket "1")).tickets = some t2 ∧
      t2.status = Status.Cancelled :=
  c3_cancelled_is_terminal reachable_sA3
    (by decide : dlookup "1" sA3.tickets = some ⟨"1", 0, [paxA, paxB], Status.Cancelled⟩)
    rfl (Op.cancelTicket "1")

/-- Claim C4 as stated is false: in the reachable state `sB3` the waiting
list of the only train still contains PNR `"1"`, whose ticket was cancelled
while Waiting and now has status Cancelled, not Waiting. -/
theorem c4_waiting_list_claim_false : ¬ C4Claim := by
  intro h
  obtain ⟨-, hall⟩ := h sB3 reachable_sB3 0
    ⟨"16526", "Kanyakumari Exp", "Bengaluru", "Kanyakumari", 1, 1, ["1"]⟩ (by decide)
  obtain ⟨t, hlk, hst, -⟩ := hall "1" (by decide)
  have h2 : dlookup "1" sB3.tickets = some ⟨"1", 0, [paxA, paxB], Status.Cancelled⟩ := by
    decide
  rw [h2] at hlk
  obtain rfl := Option.some.inj hlk
  exact absurd hst (by decide)

/-- Claim C4 amended: in every reachable state, every waiting-list entry
names an existing ticket of that train whose status is Waiting or Cancelled,
and no duplicates appear; cancelling a ticket (Waiting or Confirmed) leaves
every train object — in particular every waiting list — unchanged, so a
cancelled Waiting ticket is not removed from the list. -/
theorem c4_waiting_list_invariant_amended {s : ReservationSystem} (hs : Reachable s) :
    (∀ i tr, s.heap[i]? = some tr →
      tr.waiting_list.Nodup ∧
      ∀ p ∈ tr.waiting_list, ∃ t, dlookup p s.tickets = some t ∧ t.train = i ∧
        (t.status = Status.Waiting ∨ t.status = Status.Cancelled)) ∧
    (∀ p t, dlookup p s.tickets = some t → ¬ t.status = Status.Cancelled →
      (step s (Op.cancelTicket p)).heap = s.heap) := by
  have hI := reach_inv hs
  constructor
  · intro i tr hi
    obtain ⟨hnd, hall⟩ := hI.2 i tr hi
    refine ⟨hnd, ?_⟩
    intro p hp
    obtain ⟨t, hlk, htn, hst, -⟩ := hall p hp
    exact ⟨t, hlk, htn, hst⟩
  · intro p t hl hnc
    rw [step_cancel_eq (cancel_inv_eq hI hl hnc)]

/-- Witness for the amended C4 at the reachable state `sB3`. -/
theorem c4_waiting_list_invariant_amended_witness :
    (∀ i tr, sB3.heap[i]? = some tr →
      tr.waiting_list.Nodup ∧
      ∀ p ∈ tr.waiting_list, ∃ t, dlookup p sB3.tickets = some t ∧ t.train = i ∧
        (t.status = Status.Waiting ∨ t.status = Status.Cancelled)) ∧
    (∀ p t, dlookup p sB3.tickets = some t → ¬ t.status = Status.Cancelled →
      (step sB3 (Op.cancelTicket p)).heap = sB3.heap) :=
  c4_waiting_list_invariant_amended reachable_sB3

/-- Claim C5: a successful cancellation inspects only the waiting-list head.
If the list is empty, or the head needs more seats than are available, the
result state differs only in the cancelled ticket status — no entry is
promoted or removed, even if a later entry would fit.  If the head fits,
exactly the head is set to Confirmed, its party size is subtracted from the
available seats, and it is removed from the front of the list. -/
theorem c5_promotion_head_only {s : ReservationSystem} {p : String} {tkt : Ticket} {tr : Train}
    (hl : dlookup p s.tickets = some tkt) (hnc : ¬ tkt.status = Status.Cancelled)
    (hh : s.heap[tkt.train]? = some tr) :
    (tr.waiting_list = [] →
      cancel_ticket s p =
        .ok ({ s with tickets := dinsert p { tkt with status := Status.Cancelled } s.tickets },
             none)) ∧
    (∀ h₀ rest t₀, tr.waiting_list = h₀ :: rest →
      dlookup h₀ (dinsert p { tkt with status := Status.Cancelled } s.tickets) = some t₀ →
      (tr.available_seats < (t₀.passengers.length : Int) →
        cancel_ticket s p =
          .ok ({ s with
                 tickets := dinsert p { tkt with status := Status.Cancelled } s.tickets },
               none)) ∧
      ((t₀.passengers.length : Int) ≤ tr.available_seats →
        cancel_ticket s p =
          .ok ({ s with
                 tickets := dinsert h₀ { t₀ with status := Status.Confirmed }
                   (dinsert p { tkt with status := Status.Cancelled } s.tickets)
                 heap := s.heap.set tkt.train
                   { tr with
                     available_seats := tr.available_seats - (t₀.passengers.length : Int)
                     waiting_list := rest } },
               some h₀))) :=
  ⟨fun hw => cancel_eq_nowl hl hnc hh hw,
   fun h₀ rest t₀ hw ht₀ =>
     ⟨fun hlt => cancel_eq_nofit hl hnc hh hw ht₀ (not_le.mpr hlt),
      fun hge => cancel_eq_fit hl hnc hh hw ht₀ hge⟩⟩

/-- Witness for C5: in `sC3` (five seats, Confirmed party of three, Waiting
head party of three, two seats free) cancelling the Confirmed ticket leaves
the waiting list untouched because the head does not fit the still-uncredited
two seats. -/
theorem c5_promotion_head_only_witness :
    cancel_ticket sC3 "1" =
      .ok ({ sC3 with
             tickets := dinsert "1" ⟨"1", 0, [paxA, paxB, paxC], Status.Cancelled⟩
               sC3.tickets },
           none) :=
  ((c5_promotion_head_only
      (by decide : dlookup "1" sC3.tickets =
        some ⟨"1", 0, [paxA, paxB, paxC], Status.Confirmed⟩)
      (by decide)
      (by decide : sC3.heap[(0 : Nat)]? =
        some ⟨"12627", "Karnataka Express", "Bengaluru", "New Delhi", 5, 2, ["2"]⟩)).2
    "2" [] ⟨"2", 0, [paxA, paxB, paxC], Status.Waiting⟩ (by decide) (by decide)).1 (by decide)

/-- Claim C6: booking on an existing train with a non-empty passenger list of
size n yields a Confirmed ticket and debits exactly n seats when n seats are
available, and otherwise yields a Waiting ticket appended at the tail of the
waiting list with the available seats unchanged. -/
theorem c6_book_confirm_or_wait {s : ReservationSystem} {tn : String} {ps : List Passenger}
    {ref : Nat} {tr : Train}
    (hd : dlookup tn s.trains = some ref) (hh : s.heap[ref]? = some tr) (hn0 : ps ≠ []) :
    ((ps.length : Int) ≤ tr.available_seats →
      book_ticket s tn ps =
        .ok ({ s with
               pnr_counter := s.pnr_counter + 1
               tickets := dinsert (Nat.repr (s.pnr_counter + 1))
                 (Ticket.mk (Nat.repr (s.pnr_counter + 1)) ref ps Status.Confirmed) s.tickets
               heap := s.heap.set ref
                 { tr with available_seats := tr.available_seats - (ps.length : Int) } },
             Nat.repr (s.pnr_counter + 1))) ∧
    (tr.available_seats < (ps.length : Int) →
      book_ticket s tn ps =
        .ok ({ s with
               pnr_counter := s.pnr_counter + 1
               tickets := dinsert (Nat.repr (s.pnr_counter + 1))
                 (Ticket.mk (Nat.repr (s.pnr_counter + 1)) ref ps Status.Waiting) s.tickets
               heap := s.heap.set ref
                 { tr with waiting_list := tr.waiting_list ++ [Nat.repr (s.pnr_counter + 1)] } },
             Nat.repr (s.pnr_counter + 1))) :=
  ⟨fun hle => book_eq_confirmed hd hh hn0 hle,
   fun hlt => book_eq_waiting hd hh hn0 (not_le.mpr hlt)⟩

/-- Witness for C6: both branches, at concrete states — a fitting booking on
the empty two-seat train produces the Confirmed state `sA2`; an oversized
booking on the two-remaining-seat train of `sC2` produces the Waiting state
`sC3`. -/
theorem c6_book_confirm_or_wait_witness :
    book_ticket sA1 "12028" [paxA, paxB] = .ok (sA2, "1") ∧
    book_ticket sC2 "12627" [paxA, paxB, paxC] = .ok (sC3, "2") :=
  ⟨(c6_book_confirm_or_wait
      (by decide : dlookup "12028" sA1.trains = some 0)
      (by decide : sA1.heap[(0 : Nat)]? =
        some ⟨"12028", "Shatabdi Express", "Bengaluru", "Chennai", 2, 2, []⟩)
      (by decide)).1 (by decide),
   (c6_book_confirm_or_wait
      (by decide : dlookup "12627" sC2.trains = some 0)
      (by decide : sC2.heap[(0 : Nat)]? =
        some ⟨"12627", "Karnataka Express", "Bengaluru", "New Delhi", 5, 2, []⟩)
      (by decide)).2 (by decide)⟩

/-- A successful booking returns the string form of the incremented counter
and stores the incremented counter. -/
theorem book_ok_pnr {s s1 : ReservationSystem} {tn : String} {ps : List Passenger} {q : String}
    (h : book_ticket s tn ps = .ok (s1, q)) :
    q = Nat.repr (s.pnr_counter + 1) ∧ s1.pnr_counter = s.pnr_counter + 1 := by
  obtain ⟨ref, tr, hd, hh, hn0⟩ := book_ok_inversion h
  by_cases hav : tr.check_availability ≥ (ps.length : Int)
  · rw [book_eq_confirmed hd hh hn0 hav] at h
    injection h with h2
    injection h2 with h3 h4
    exact ⟨h4.symm, by rw [← h3]⟩
  · rw [book_eq_waiting hd hh hn0 hav] at h
    injection h with h2
    injection h2 with h3 h4
    exact ⟨h4.symm, by rw [← h3]⟩

/-- A successful cancellation never changes the PNR counter. -/
theorem cancel_ok_counter {s s1 : ReservationSystem} {p : String} {r : Option String}
    (h : cancel_ticket s p = .ok (s1, r)) : s1.pnr_counter = s.pnr_counter := by
  obtain ⟨tkt, hl, hnc⟩ := cancel_ok_inversion h
  cases hh : s.heap[tkt.train]? with
  | none =>
    have herr : cancel_ticket s p = .error Err.KeyError := by
      simp [cancel_ticket, hl, hnc, hh]
    rw [herr] at h
    cases h
  | some tr =>
    cases hw : tr.waiting_list with
    | nil =>
      rw [cancel_eq_nowl hl hnc hh hw] at h
      injection h with h2
      injection h2 with h3 h4
      rw [← h3]
    | cons h₀ rest =>
      cases hlk : dlookup h₀ (dinsert p { tkt with status := Status.Cancelled } s.tickets) with
      | none =>
        have herr : cancel_ticket s p = .error Err.KeyError := by
          simp [cancel_ticket, hl, hnc, hh, hw, hlk]
        rw [herr] at h
        cases h
      | some t₀ =>
        by_cases hfit : tr.available_seats ≥ (t₀.passengers.length : Int)
        · rw [cancel_eq_fit hl hnc hh hw hlk hfit] at h
          injection h with h2
          injection h2 with h3 h4
          rw [← h3]
        · rw [cancel_eq_nofit hl hnc hh hw hlk hfit] at h
          injection h with h2
          injection h2 with h3 h4
          rw [← h3]

/-- No operation ever decreases the PNR counter. -/
theorem step_counter_mono (s : ReservationSystem) (op : Op) :
    s.pnr_counter ≤ (step s op).pnr_counter := by
  cases op with
  | addTrain tn nm src dst cap => exact le_refl _
  | bookTicket tn ps =>
    cases hb : book_ticket s tn ps with
    | error e =>
      rw [step_book_err hb]
    | ok pr =>
      obtain ⟨s1, q⟩ := pr
      rw [step_book_eq hb, (book_ok_pnr hb).2]
      omega
  | cancelTicket p =>
    cases hc : cancel_ticket s p with
    | error e =>
      rw [step_cancel_err hc]
    | ok pr =>
      obtain ⟨s1, r⟩ := pr
      rw [step_cancel_eq hc, cancel_ok_counter hc]
  | getStatus p => exact le_refl _

/-- The counter is monotone along any operation sequence. -/
theorem steps_counter_mono {s t : ReservationSystem} (h : Steps s t) :
    s.pnr_counter ≤ t.pnr_counter := by
  induction h with
  | refl => exact le_refl _
  | tail op hst ih => exact le_trans ih (step_counter_mono _ op)

/-- Claim C9: each ticket creation returns the string form of the counter
after incrementing it; a later creation in the same process (any sequence of
operations in between) yields a PNR that is strictly greater read as a
number, hence the two PNR strings are distinct. -/
theorem c9_pnr_monotone {s1 s1x s2 s2x : ReservationSystem} {tn1 tn2 : String}
    {ps1 ps2 : List Passenger} {p1 p2 : String}
    (h1 : book_ticket s1 tn1 ps1 = .ok (s1x, p1))
    (hS : Steps s1x s2)
    (h2 : book_ticket s2 tn2 ps2 = .ok (s2x, p2)) :
    p1 = Nat.repr (s1.pnr_counter + 1) ∧ s1x.pnr_counter = s1.pnr_counter + 1 ∧
    (∃ m1 m2, p1 = Nat.repr m1 ∧ p2 = Nat.repr m2 ∧ m1 < m2) ∧ p1 ≠ p2 := by
  obtain ⟨hp1, hc1⟩ := book_ok_pnr h1
  obtain ⟨hp2, hc2⟩ := book_ok_pnr h2
  have hmono := steps_counter_mono hS
  have hlt : s1.pnr_counter + 1 < s2.pnr_counter + 1 := by omega
  refine ⟨hp1, hc1, ⟨s1.pnr_counter + 1, s2.pnr_counter + 1, hp1, hp2, hlt⟩, ?_⟩
  intro he
  rw [hp1, hp2] at he
  exact absurd (nat_repr_injective he) (by omega)

/-- Witness for C9: two consecutive single-passenger bookings on the two-seat
train receive PNRs `"1"` and `"2"`. -/
theorem c9_pnr_monotone_witness :
    "1" = Nat.repr (sA1.pnr_counter + 1) ∧ sD2.pnr_counter = sA1.pnr_counter + 1 ∧
    (∃ m1 m2, "1" = Nat.repr m1 ∧ "2" = Nat.repr m2 ∧ m1 < m2) ∧ "1" ≠ "2" :=
  c9_pnr_monotone
    (rfl : book_ticket sA1 "12028" [paxA] = .ok (sD2, "1"))
    (Steps.refl sD2)
    (rfl : book_ticket sD2 "12028" [paxB] = .ok (sD3, "2"))

/-- Claim C10: in every reachable state, a stored ticket with status Waiting
has its PNR on its train waiting list, so `check_pnr_status` finds an index
and reports the 1-based position — the position computation never fails for
a Waiting ticket. -/
theorem c10_waiting_position_defined {s : ReservationSystem} (hs : Reachable s) {p : String}
    {t : Ticket} (hl : dlookup p s.tickets = some t) (hW : t.status = Status.Waiting) :
    ∃ i, check_pnr_status s p = .ok { ticket := t, position := some (i + 1) } := by
  have hI := reach_inv hs
  obtain ⟨hpnr, hlt, hm, hwait⟩ := hI.1 p t hl
  obtain ⟨tr, htr, hmemw⟩ := hwait hW
  have hpm : p ∈ tr.waiting_list := by rw [hpnr]; exact hmemw
  obtain ⟨i, hidx⟩ := listIndex_of_mem p tr.waiting_list hpm
  exact ⟨i, by simp [check_pnr_status, hl, hW, htr, hidx]⟩

/-- Witness for C10: the Waiting ticket `"1"` of `sB2` is reported at
position 1. -/
theorem c10_waiting_position_defined_witness :
    ∃ i, check_pnr_status sB2 "1" =
      .ok { ticket := ⟨"1", 0, [paxA, paxB], Status.Waiting⟩, position := some (i + 1) } :=
  c10_waiting_position_defined reachable_sB2
    (by decide : dlookup "1" sB2.tickets = some ⟨"1", 0, [paxA, paxB], Status.Waiting⟩)
    rfl

end TrainReservation